import Mathlib

/-!
Verification of the cyclic reasoning-workflow engine of
`src/scripts/reasoning_graph.py` (class `ReasoningGraph`).

The shared mutable dictionary `OverallState` (a Python `TypedDict`) is
embedded as a record of optional fields: `none` models an absent key,
`some v` a present one.  Python `state.get(k, d)` becomes `Option.getD`,
Python `state[k]` on a possibly missing key becomes a `KeyError`
propagated through `Except String`.  Python `int` is `ℤ` and the quality
scores (the floats 0.5, 0.75, 0.8, all exactly comparable) are `ℚ`.

The node bodies and the two routers are translated directly from the
source.  The graph walker itself is LangGraph library code that is not
part of the repository; it is modelled from the spec's execution
algorithm (§4.4): a fuel-indexed traversal over configurations
`(current node, state, trace of executed nodes)`.
-/

namespace ReasoningGraph

/-- State record of the reasoning graph (`OverallState` TypedDict in the
source); each field is optional because a Python dict key may be absent. -/
structure OverallState where
  query : Option String
  search_results : Option (List String)
  reflections : Option (List String)
  final_answer : Option String
  iteration_count : Option ℤ
  quality_score : Option ℚ
deriving DecidableEq, Repr

/-- Node `generate_query`: reads `query` with default (no effect) and
initialises `iteration_count` to 0 when the key is absent. -/
def generate_query (state : OverallState) : OverallState :=
  if state.iteration_count = none then { state with iteration_count := some 0 }
  else state

/-- Node `web_research`: increments `iteration_count` (default 0) by 1 and
appends two simulated result strings to `search_results`.  The f-strings
subscript `state['query']`, so a state without `query` raises `KeyError`. -/
def web_research (state : OverallState) : Except String OverallState :=
  let ic : ℤ := state.iteration_count.getD 0 + 1
  match state.query with
  | none => .error "query"
  | some q =>
      let results : List String :=
        ["Research finding " ++ toString ic ++ " for: " ++ q,
         "Research detail " ++ toString ic ++ " for: " ++ q]
      .ok { state with
              iteration_count := some ic,
              search_results := some (state.search_results.getD [] ++ results) }

/-- Quality-scoring policy hard-coded in the source's `reflection` node:
`0.8 if state["iteration_count"] >= 2 else 0.5`. -/
def refScore (ic : ℤ) : ℚ :=
  if ic ≥ 2 then 0.8 else 0.5

/-- Node `reflection`, with the scoring policy abstracted as a parameter
(the spec treats scoring as a pluggable evaluation collaborator).  It
subscripts `state['iteration_count']`, so an absent key raises `KeyError`;
it appends one reflection string and overwrites `quality_score`. -/
def reflectionWith (score : ℤ → ℚ) (state : OverallState) :
    Except String OverallState :=
  match state.iteration_count with
  | none => .error "iteration_count"
  | some ic =>
      let r : String := "Quality assessment of iteration " ++ toString ic
      .ok { state with
              reflections := some (state.reflections.getD [] ++ [r]),
              quality_score := some (score ic) }

/-- Node `reflection` exactly as in the source: `reflectionWith` at the
hard-coded reference scoring policy `refScore`. -/
def reflection (state : OverallState) : Except String OverallState :=
  reflectionWith refScore state

/-- Node `finalize_answer`: writes `final_answer` from the length of
`search_results` (read with default `[]`). -/
def finalize_answer (state : OverallState) : OverallState :=
  { state with
      final_answer := some ("Final answer based on "
        ++ toString (state.search_results.getD []).length ++ " findings") }

/-- Router `continue_to_web_research`: always selects `web_research`. -/
def continue_to_web_research (_ : OverallState) : String :=
  "web_research"

/-- Router `evaluate_research`: reads `quality_score` and
`iteration_count` with default 0; hard cap at 3 iterations checked first,
then the 0.75 quality threshold. -/
def evaluate_research (state : OverallState) : String :=
  let quality_score : ℚ := state.quality_score.getD 0
  let iteration_count : ℤ := state.iteration_count.getD 0
  if iteration_count ≥ 3 then "finalize_answer"
  else if quality_score < 0.75 then "web_research"
  else "finalize_answer"

/-- Executor dispatch of the compiled graph: the node registry built in
`build_graph` maps each of the four node names to its executor.  The
scoring collaborator used by the `reflection` node is a parameter; the
repository's graph uses `reflectionWith refScore` (= `reflection`). -/
def runNodeWith (score : ℤ → ℚ) (name : String) (s : OverallState) :
    Except String OverallState :=
  if name = "generate_query" then .ok (generate_query s)
  else if name = "web_research" then web_research s
  else if name = "reflection" then reflectionWith score s
  else if name = "finalize_answer" then .ok (finalize_answer s)
  else .error "unknown-node"

/-- Edge table built in `build_graph`: `START → generate_query`; a
conditional edge after `generate_query` (router
`continue_to_web_research`, candidates `["web_research"]`); an
unconditional edge `web_research → reflection`; a conditional edge after
`reflection` (router `evaluate_research`, candidates
`["web_research", "finalize_answer"]`); `finalize_answer → END`.  A
router's answer is validated against its declared candidate set (spec
§4.4 step 4); `none` is the RouterContractViolation / missing-edge case. -/
def nextNodeWith (name : String) (s : OverallState) : Option String :=
  if name = "START" then some "generate_query"
  else if name = "generate_query" then
    if continue_to_web_research s ∈ ["web_research"] then
      some (continue_to_web_research s)
    else none
  else if name = "web_research" then some "reflection"
  else if name = "reflection" then
    if evaluate_research s ∈ ["web_research", "finalize_answer"] then
      some (evaluate_research s)
    else none
  else if name = "finalize_answer" then some "END"
  else none

/-- Configuration of the execution engine: the current node identity, the
shared state, and the trace of node names already executed. -/
structure Config where
  node : String
  state : OverallState
  trace : List String
deriving DecidableEq, Repr

/-- Result of one engine step. -/
inductive StepResult where
  | done (c : Config)
  | next (c : Config)
  | failed (trace : List String) (err : String)
deriving DecidableEq, Repr

/-- Modelled from the spec: one step of the execution algorithm (§4.4) of
the LangGraph engine, which is library code not under `src/`.  At `END`
the run is complete; `START` has no executor and transitions directly; at
any other node the engine invokes the executor, replaces the state with
its result, records the execution in the trace, and follows the edge
table, propagating `KeyError`s and router-contract violations. -/
def stepWith (score : ℤ → ℚ) (c : Config) : StepResult :=
  if c.node = "END" then .done c
  else if c.node = "START" then .next ⟨"generate_query", c.state, c.trace⟩
  else
    match runNodeWith score c.node c.state with
    | .error e => .failed (c.trace ++ [c.node]) e
    | .ok s' =>
        match nextNodeWith c.node s' with
        | some nxt => .next ⟨nxt, s', c.trace ++ [c.node]⟩
        | none => .failed (c.trace ++ [c.node]) "router-contract-violation"

/-- Outcome of a run: normal completion at `END` with the trace of
executed nodes and the final state, a propagated error, or fuel
exhaustion (the fuel-indexed embedding of an unbounded loop). -/
inductive RunOutcome where
  | finished (trace : List String) (s : OverallState)
  | failed (trace : List String) (err : String)
  | outOfFuel (c : Config)
deriving DecidableEq, Repr

/-- Modelled from the spec: the engine loop (§4.4 steps 2-5), iterating
`stepWith` until `END`, an error, or fuel exhaustion. -/
def runFromWith (score : ℤ → ℚ) : ℕ → Config → RunOutcome
  | 0, c => .outOfFuel c
  | fuel + 1, c =>
      match stepWith score c with
      | .done c' => .finished c'.trace c'.state
      | .failed tr e => .failed tr e
      | .next c' => runFromWith score fuel c'

/-- Modelled from the spec: `run(initial_state)` on the compiled graph
with a substituted scoring collaborator — start at `START` with an empty
trace. -/
def runWith (score : ℤ → ℚ) (fuel : ℕ) (init : OverallState) : RunOutcome :=
  runFromWith score fuel ⟨"START", init, []⟩

/-- One engine step of the repository's graph (reference scoring policy). -/
def step (c : Config) : StepResult :=
  stepWith refScore c

/-- Engine loop of the repository's graph. -/
def runFrom (fuel : ℕ) (c : Config) : RunOutcome :=
  runFromWith refScore fuel c

/-- Modelled from the spec: `run(initial_state)` of the repository's
graph as built by `build_graph`. -/
def run (fuel : ℕ) (init : OverallState) : RunOutcome :=
  runWith refScore fuel init

/-- Number of executions of `web_research` recorded in a trace. -/
def wrCount (tr : List String) : ℕ :=
  tr.count "web_research"

/-- Number of executions of `reflection` recorded in a trace. -/
def reflCount (tr : List String) : ℕ :=
  tr.count "reflection"

/-- Configurations reachable from `c` by the engine of the repository's
graph (reflexive-transitive closure of `step`). -/
inductive Reaches : Config → Config → Prop
  | refl (c : Config) : Reaches c c
  | tail {a b c : Config} : Reaches a b → step b = .next c → Reaches a c

/-- Initial configuration of a run on `init`. -/
def startConfig (init : OverallState) : Config :=
  ⟨"START", init, []⟩

/-- Trace of a finished outcome. -/
def traceOf : RunOutcome → Option (List String)
  | .finished tr _ => some tr
  | _ => none

/-- Final state of a finished outcome. -/
def finalStateOf : RunOutcome → Option OverallState
  | .finished _ s => some s
  | _ => none

/-- Final `iteration_count` field of a finished outcome. -/
def finalIterOf (o : RunOutcome) : Option (Option ℤ) :=
  (finalStateOf o).map OverallState.iteration_count

/-- Static description of a graph under construction: declared node names
and conditional edges (source node, declared candidate targets). -/
structure GraphDef where
  nodes : List String
  conditionalEdges : List (String × List String)
deriving DecidableEq, Repr

/-- Modelled from the spec: build-time validation of the graph builder
(LangGraph `StateGraph.compile`, library code not under `src/`) — raises
`BuildError` if some conditional edge declares a candidate target that is
not in the node registry (§7). -/
def buildCheck (g : GraphDef) : Except String Unit :=
  if ∀ e ∈ g.conditionalEdges, ∀ t ∈ e.2, t ∈ g.nodes then .ok ()
  else .error "BuildError"

/-- The graph declared by `build_graph`: four registered nodes and two
conditional edges. -/
def reasoningGraphDef : GraphDef :=
  { nodes := ["generate_query", "web_research", "reflection", "finalize_answer"],
    conditionalEdges :=
      [("generate_query", ["web_research"]),
       ("reflection", ["web_research", "finalize_answer"])] }

/-- Modelled from the spec: a run can only start on a graph whose
construction succeeded — `BuildError` is raised before `run` is ever
called. -/
def buildAndRun (g : GraphDef) (fuel : ℕ) (init : OverallState) :
    Except String RunOutcome :=
  match buildCheck g with
  | .error e => .error e
  | .ok _ => .ok (run fuel init)

/-- Pair of final list lengths (`search_results`, `reflections`) of a
finished outcome. -/
def finalCountsOf (o : RunOutcome) : Option (ℕ × ℕ) :=
  (finalStateOf o).map
    (fun s => ((s.search_results.getD []).length, (s.reflections.getD []).length))

/-- Initial state of end-to-end scenario A: `query = "test"`, every other
key absent. -/
def scenarioAInit : OverallState :=
  ⟨some "test", none, none, none, none, none⟩

/-- Initial input mapping `{query: "q", iteration_count: 3}`. -/
def iterThreeInit : OverallState :=
  ⟨some "q", none, none, none, some 3, none⟩

section EngineLemmas

/-- Helper: an engine step at `START` transitions to `generate_query`
without executing anything. -/
lemma stepWith_START (score : ℤ → ℚ) (s : OverallState) (tr : List String) :
    stepWith score ⟨"START", s, tr⟩ = .next ⟨"generate_query", s, tr⟩ :=
  rfl

/-- Helper: an engine step at `END` completes the run. -/
lemma stepWith_END (score : ℤ → ℚ) (s : OverallState) (tr : List String) :
    stepWith score ⟨"END", s, tr⟩ = .done ⟨"END", s, tr⟩ :=
  rfl

/-- Helper: an engine step at `generate_query` executes the node and
moves to `web_research` (router `continue_to_web_research`). -/
lemma stepWith_generate_query (score : ℤ → ℚ) (s : OverallState)
    (tr : List String) :
    stepWith score ⟨"generate_query", s, tr⟩ =
      .next ⟨"web_research", generate_query s, tr ++ ["generate_query"]⟩ :=
  rfl

/-- Helper: an engine step at `web_research` executes the node and moves
to `reflection` on success, propagating `KeyError` on failure. -/
lemma stepWith_web_research (score : ℤ → ℚ) (s : OverallState)
    (tr : List String) :
    stepWith score ⟨"web_research", s, tr⟩ =
      (match web_research s with
       | .error e => .failed (tr ++ ["web_research"]) e
       | .ok s' => .next ⟨"reflection", s', tr ++ ["web_research"]⟩) := by
  cases hq : s.query <;>
    simp [stepWith, runNodeWith, nextNodeWith, web_research, hq]

/-- Helper: `evaluate_research` always answers inside its declared
candidate set. -/
lemma evaluate_research_mem (s : OverallState) :
    evaluate_research s = "web_research" ∨
      evaluate_research s = "finalize_answer" := by
  by_cases h1 : (3 : ℤ) ≤ s.iteration_count.getD 0
  · right
    simp [evaluate_research, h1]
  · by_cases h2 : s.quality_score.getD 0 < 0.75
    · left
      simp [evaluate_research, h1, h2]
    · right
      simp [evaluate_research, h1, h2]

/-- Helper: the conditional edge after `reflection` validates and follows
the router's answer. -/
lemma nextNodeWith_reflection (s : OverallState) :
    nextNodeWith "reflection" s = some (evaluate_research s) := by
  rcases evaluate_research_mem s with h | h <;> simp [nextNodeWith, h]

/-- Helper: an engine step at `reflection` executes the node and moves to
the target chosen by router `evaluate_research` on success. -/
lemma stepWith_reflection (score : ℤ → ℚ) (s : OverallState)
    (tr : List String) :
    stepWith score ⟨"reflection", s, tr⟩ =
      (match reflectionWith score s with
       | .error e => .failed (tr ++ ["reflection"]) e
       | .ok s' => .next ⟨evaluate_research s', s', tr ++ ["reflection"]⟩) := by
  cases hic : s.iteration_count with
  | none => simp [stepWith, runNodeWith, nextNodeWith, reflectionWith, hic]
  | some ic =>
      simp [stepWith, runNodeWith, nextNodeWith_reflection, reflectionWith, hic]

/-- Helper: an engine step at `finalize_answer` executes the node and
moves to `END`. -/
lemma stepWith_finalize_answer (score : ℤ → ℚ) (s : OverallState)
    (tr : List String) :
    stepWith score ⟨"finalize_answer", s, tr⟩ =
      .next ⟨"END", finalize_answer s, tr ++ ["finalize_answer"]⟩ :=
  rfl

/-- Helper: unfolding one engine iteration on a `next` step. -/
lemma runFromWith_next (score : ℤ → ℚ) {c c' : Config} (fuel : ℕ)
    (h : stepWith score c = .next c') :
    runFromWith score (fuel + 1) c = runFromWith score fuel c' := by
  simp [runFromWith, h]

/-- Helper: the engine finishes at `END` when fuel remains. -/
lemma runFromWith_END (score : ℤ → ℚ) (fuel : ℕ) (s : OverallState)
    (tr : List String) :
    runFromWith score (fuel + 1) ⟨"END", s, tr⟩ = .finished tr s := by
  simp [runFromWith, stepWith_END]

end EngineLemmas

section NodeLemmas

/-- Helper: `generate_query` leaves the defaulted `iteration_count`
unchanged (it only materialises the default 0 for an absent key). -/
lemma generate_query_iter (s : OverallState) :
    (generate_query s).iteration_count.getD 0 = s.iteration_count.getD 0 := by
  unfold generate_query
  cases h : s.iteration_count <;> simp [h]

/-- Helper: `generate_query` touches no field except `iteration_count`. -/
lemma generate_query_other (s : OverallState) :
    (generate_query s).query = s.query ∧
      (generate_query s).search_results = s.search_results ∧
      (generate_query s).reflections = s.reflections ∧
      (generate_query s).final_answer = s.final_answer ∧
      (generate_query s).quality_score = s.quality_score := by
  unfold generate_query
  cases h : s.iteration_count <;> simp [h]

/-- Helper: a successful `web_research` sets `iteration_count` to its
previous defaulted value plus one. -/
lemma web_research_iter {s s' : OverallState}
    (h : web_research s = .ok s') :
    s'.iteration_count = some (s.iteration_count.getD 0 + 1) := by
  unfold web_research at h
  cases hq : s.query <;> rw [hq] at h
  · exact absurd h (by simp)
  · cases h
    rfl

/-- Helper: a successful `web_research` appends exactly two strings to
the defaulted `search_results` and preserves `reflections`. -/
lemma web_research_lists {s s' : OverallState}
    (h : web_research s = .ok s') :
    (s'.search_results.getD []).length
        = (s.search_results.getD []).length + 2 ∧
      s'.reflections = s.reflections := by
  unfold web_research at h
  cases hq : s.query <;> rw [hq] at h
  · exact absurd h (by simp)
  · cases h
    simp

/-- Helper: a successful `reflection` keeps `iteration_count` and
`search_results`, appends exactly one string to the defaulted
`reflections`, and overwrites `quality_score` with the score of the
current iteration. -/
lemma reflectionWith_spec {score : ℤ → ℚ} {s s' : OverallState}
    (h : reflectionWith score s = .ok s') :
    s'.iteration_count = s.iteration_count ∧
      s'.search_results = s.search_results ∧
      (s'.reflections.getD []).length = (s.reflections.getD []).length + 1 ∧
      ∃ ic, s.iteration_count = some ic ∧ s'.quality_score = some (score ic) := by
  unfold reflectionWith at h
  cases hic : s.iteration_count <;> rw [hic] at h
  · exact absurd h (by simp)
  · cases h
    simp [hic]

/-- Helper: `finalize_answer` touches no field except `final_answer`. -/
lemma finalize_answer_other (s : OverallState) :
    (finalize_answer s).query = s.query ∧
      (finalize_answer s).search_results = s.search_results ∧
      (finalize_answer s).reflections = s.reflections ∧
      (finalize_answer s).iteration_count = s.iteration_count ∧
      (finalize_answer s).quality_score = s.quality_score := by
  unfold finalize_answer
  simp

end NodeLemmas

section StepShape

/-- Helper: exhaustive description of the engine transitions — every
`next` step of the repository's graph is one of the five edges of
`build_graph`. -/
lemma step_next_spec {c c' : Config} (h : step c = .next c') :
    (c.node = "START" ∧ c'.node = "generate_query"
        ∧ c'.state = c.state ∧ c'.trace = c.trace)
    ∨ (c.node = "generate_query" ∧ c'.node = "web_research"
        ∧ c'.state = generate_query c.state
        ∧ c'.trace = c.trace ++ ["generate_query"])
    ∨ (c.node = "web_research" ∧ c'.node = "reflection"
        ∧ web_research c.state = .ok c'.state
        ∧ c'.trace = c.trace ++ ["web_research"])
    ∨ (c.node = "reflection" ∧ c'.node = evaluate_research c'.state
        ∧ reflection c.state = .ok c'.state
        ∧ c'.trace = c.trace ++ ["reflection"])
    ∨ (c.node = "finalize_answer" ∧ c'.node = "END"
        ∧ c'.state = finalize_answer c.state
        ∧ c'.trace = c.trace ++ ["finalize_answer"]) := by
  obtain ⟨nd, s, tr⟩ := c
  by_cases hEND : nd = "END"
  · subst hEND
    rw [show step ⟨"END", s, tr⟩ = .done ⟨"END", s, tr⟩ from rfl] at h
    exact absurd h (by simp)
  by_cases hSTART : nd = "START"
  · subst hSTART
    rw [step, stepWith_START] at h
    cases h
    exact Or.inl ⟨rfl, rfl, rfl, rfl⟩
  by_cases hGQ : nd = "generate_query"
  · subst hGQ
    rw [step, stepWith_generate_query] at h
    cases h
    exact Or.inr (Or.inl ⟨rfl, rfl, rfl, rfl⟩)
  by_cases hWR : nd = "web_research"
  · subst hWR
    rw [step, stepWith_web_research] at h
    cases hok : web_research s <;> rw [hok] at h
    · exact absurd h (by simp)
    · cases h
      exact Or.inr (Or.inr (Or.inl ⟨rfl, rfl, rfl, rfl⟩))
  by_cases hRF : nd = "reflection"
  · subst hRF
    rw [step, stepWith_reflection] at h
    cases hok : reflectionWith refScore s <;> rw [hok] at h
    · exact absurd h (by simp)
    · cases h
      exact Or.inr (Or.inr (Or.inr (Or.inl ⟨rfl, rfl, hok, rfl⟩)))
  by_cases hFA : nd = "finalize_answer"
  · subst hFA
    rw [step, stepWith_finalize_answer] at h
    cases h
    exact Or.inr (Or.inr (Or.inr (Or.inr ⟨rfl, rfl, rfl, rfl⟩)))
  · exfalso
    rw [step] at h
    rw [show stepWith refScore ⟨nd, s, tr⟩
          = (match runNodeWith refScore nd s with
             | .error e => .failed (tr ++ [nd]) e
             | .ok s' =>
                 match nextNodeWith nd s' with
                 | some nxt => .next ⟨nxt, s', tr ++ [nd]⟩
                 | none => .failed (tr ++ [nd]) "router-contract-violation")
        from by simp [stepWith, hEND, hSTART]] at h
    rw [show runNodeWith refScore nd s = .error "unknown-node"
        from by simp [runNodeWith, hGQ, hWR, hRF, hFA]] at h
    exact absurd h (by simp)

/-- Helper: induction along engine reachability — a property preserved by
every `next` step holds at every reachable configuration. -/
lemma reaches_inv {P : Config → Prop}
    (hstep : ∀ b c, P b → step b = .next c → P c) {a c : Config}
    (h : Reaches a c) (ha : P a) : P c := by
  induction h with
  | refl => exact ha
  | tail _ hs ih => exact hstep _ _ ih hs

end StepShape

section Invariants

/-- Helper: executing `web_research` adds one to the trace's
`web_research` count. -/
lemma wrCount_append_wr (tr : List String) :
    wrCount (tr ++ ["web_research"]) = wrCount tr + 1 := by
  simp [wrCount]

/-- Helper: executing any other node keeps the trace's `web_research`
count. -/
lemma wrCount_append_other (tr : List String) {x : String}
    (h : x ≠ "web_research") :
    wrCount (tr ++ [x]) = wrCount tr := by
  simp [wrCount, List.count_append, List.count_singleton]
  intro hx
  exact absurd hx h

/-- Helper: executing `reflection` adds one to the trace's `reflection`
count. -/
lemma reflCount_append_refl (tr : List String) :
    reflCount (tr ++ ["reflection"]) = reflCount tr + 1 := by
  simp [reflCount]

/-- Helper: executing any other node keeps the trace's `reflection`
count. -/
lemma reflCount_append_other (tr : List String) {x : String}
    (h : x ≠ "reflection") :
    reflCount (tr ++ [x]) = reflCount tr := by
  simp [reflCount, List.count_append, List.count_singleton]
  intro hx
  exact absurd hx h

/-- Helper: `web_research` never changes `query`, and neither does
`reflection`. -/
lemma query_preserved {s s' : OverallState} :
    (web_research s = .ok s' → s'.query = s.query) ∧
      (∀ score, reflectionWith score s = .ok s' → s'.query = s.query) := by
  constructor
  · intro h
    unfold web_research at h
    cases hq : s.query <;> rw [hq] at h
    · exact absurd h (by simp)
    · cases h
      simp [hq]
  · intro score h
    unfold reflectionWith at h
    cases hic : s.iteration_count <;> rw [hic] at h
    · exact absurd h (by simp)
    · cases h
      rfl

/-- Helper: along every engine run started with `iteration_count` absent
or 0, the defaulted `iteration_count` of any reachable configuration
equals the number of `web_research` executions recorded in its trace. -/
lemma iter_eq_wrCount_reaches {init : OverallState} {c : Config}
    (hic : init.iteration_count = none ∨ init.iteration_count = some 0)
    (h : Reaches (startConfig init) c) :
    c.state.iteration_count.getD 0 = (wrCount c.trace : ℤ) := by
  refine reaches_inv
    (P := fun k => k.state.iteration_count.getD 0 = (wrCount k.trace : ℤ))
    ?_ h ?_
  · intro b c hPb hs
    rcases step_next_spec hs with
        ⟨_, _, hst, htr⟩ | ⟨_, _, hst, htr⟩ | ⟨_, _, hok, htr⟩ |
        ⟨_, _, hok, htr⟩ | ⟨_, _, hst, htr⟩
    · rw [hst, htr]
      exact hPb
    · rw [hst, htr, generate_query_iter, wrCount_append_other _ (by decide)]
      exact hPb
    · rw [htr, web_research_iter hok, wrCount_append_wr]
      push_cast
      simp [hPb]
    · rw [htr, (reflectionWith_spec hok).1,
        wrCount_append_other _ (by decide)]
      exact hPb
    · rw [hst, htr, (finalize_answer_other b.state).2.2.2.1,
        wrCount_append_other _ (by decide)]
      exact hPb
  · rcases hic with h0 | h0 <;> simp [startConfig, wrCount, h0]

/-- Helper: along every engine run, the defaulted lengths of
`search_results` and `reflections` of any reachable configuration equal
their initial lengths plus twice the `web_research` count, resp. plus the
`reflection` count, of its trace. -/
lemma lengths_reaches {init : OverallState} {c : Config}
    (h : Reaches (startConfig init) c) :
    (c.state.search_results.getD []).length
        = (init.search_results.getD []).length + 2 * wrCount c.trace ∧
      (c.state.reflections.getD []).length
        = (init.reflections.getD []).length + reflCount c.trace := by
  refine reaches_inv
    (P := fun k =>
      (k.state.search_results.getD []).length
          = (init.search_results.getD []).length + 2 * wrCount k.trace ∧
        (k.state.reflections.getD []).length
          = (init.reflections.getD []).length + reflCount k.trace)
    ?_ h ?_
  · intro b c hPb hs
    rcases step_next_spec hs with
        ⟨_, _, hst, htr⟩ | ⟨_, _, hst, htr⟩ | ⟨_, _, hok, htr⟩ |
        ⟨_, _, hok, htr⟩ | ⟨_, _, hst, htr⟩
    · rw [hst, htr]
      exact hPb
    · rw [hst, htr, (generate_query_other b.state).2.1,
        (generate_query_other b.state).2.2.1,
        wrCount_append_other _ (by decide), reflCount_append_other _ (by decide)]
      exact hPb
    · rw [htr, (web_research_lists hok).1, (web_research_lists hok).2,
        wrCount_append_wr, reflCount_append_other _ (by decide)]
      omega
    · rw [htr, (reflectionWith_spec hok).2.1, (reflectionWith_spec hok).2.2.1,
        wrCount_append_other _ (by decide), reflCount_append_refl]
      omega
    · rw [hst, htr, (finalize_answer_other b.state).2.1,
        (finalize_answer_other b.state).2.2.1,
        wrCount_append_other _ (by decide), reflCount_append_other _ (by decide)]
      exact hPb
  · simp [startConfig, wrCount, reflCount]

/-- Helper: a single engine step never shrinks `search_results` or
`reflections`. -/
lemma lengths_mono_step {b c : Config} (hs : step b = .next c) :
    (b.state.search_results.getD []).length
        ≤ (c.state.search_results.getD []).length ∧
      (b.state.reflections.getD []).length
        ≤ (c.state.reflections.getD []).length := by
  rcases step_next_spec hs with
      ⟨_, _, hst, _⟩ | ⟨_, _, hst, _⟩ | ⟨_, _, hok, _⟩ |
      ⟨_, _, hok, _⟩ | ⟨_, _, hst, _⟩
  · rw [hst]
    exact ⟨le_rfl, le_rfl⟩
  · rw [hst, (generate_query_other b.state).2.1,
      (generate_query_other b.state).2.2.1]
    exact ⟨le_rfl, le_rfl⟩
  · rw [(web_research_lists hok).1, (web_research_lists hok).2]
    omega
  · rw [(reflectionWith_spec hok).2.1, (reflectionWith_spec hok).2.2.1]
    omega
  · rw [hst, (finalize_answer_other b.state).2.1,
      (finalize_answer_other b.state).2.2.1]
    exact ⟨le_rfl, le_rfl⟩

end Invariants

section RunShape

/-- Helper: a `done` step only happens at `END` and changes nothing. -/
lemma stepWith_done {score : ℤ → ℚ} {c c' : Config}
    (h : stepWith score c = .done c') : c' = c ∧ c.node = "END" := by
  by_cases hE : c.node = "END"
  · unfold stepWith at h
    rw [if_pos hE] at h
    cases h
    exact ⟨rfl, hE⟩
  · exfalso
    unfold stepWith at h
    rw [if_neg hE] at h
    by_cases hS : c.node = "START"
    · rw [if_pos hS] at h
      exact absurd h (by simp)
    · rw [if_neg hS] at h
      cases hr : runNodeWith score c.node c.state with
      | error e => simp [hr] at h
      | ok s2 =>
          simp only [hr] at h
          cases hn : nextNodeWith c.node s2 with
          | none => simp [hn] at h
          | some nxt => simp [hn] at h

/-- Helper: prefixing a step onto a reachability path. -/
lemma reaches_head {a b c : Config} (h : step a = .next b)
    (hr : Reaches b c) : Reaches a c := by
  induction hr with
  | refl => exact Reaches.tail (Reaches.refl a) h
  | tail _ hs ih => exact Reaches.tail ih hs

/-- Helper: a finished run reaches the `END` configuration carrying its
trace and final state. -/
lemma runFrom_finished_reaches {fuel : ℕ} {c : Config} {tr : List String}
    {s : OverallState}
    (h : runFromWith refScore fuel c = .finished tr s) :
    Reaches c ⟨"END", s, tr⟩ := by
  induction fuel generalizing c with
  | zero => exact absurd h (by simp [runFromWith])
  | succ n ih =>
      obtain ⟨nd, st, t⟩ := c
      rw [runFromWith] at h
      cases hstep : stepWith refScore ⟨nd, st, t⟩ <;> rw [hstep] at h
      · obtain ⟨hc, hE⟩ := stepWith_done hstep
        subst hc
        obtain ⟨h1, h2⟩ : t = tr ∧ st = s := by simpa using h
        subst h1
        subst h2
        have hE' : nd = "END" := hE
        subst hE'
        exact Reaches.refl _
      · exact reaches_head hstep (ih h)
      · exact absurd h (by simp)

/-- Helper: from a `finalize_answer` configuration, a finished run ends
immediately at `END`: the final trace appends only `finalize_answer` and
the final state is its output. -/
lemma finished_from_finalize {score : ℤ → ℚ} {fuel : ℕ}
    {s : OverallState} {tr tr' : List String} {s' : OverallState}
    (h : runFromWith score fuel ⟨"finalize_answer", s, tr⟩ = .finished tr' s') :
    tr' = tr ++ ["finalize_answer"] ∧ s' = finalize_answer s := by
  cases fuel with
  | zero => exact absurd h (by simp [runFromWith])
  | succ n =>
      rw [runFromWith_next score n (stepWith_finalize_answer score s tr)] at h
      cases n with
      | zero => exact absurd h (by simp [runFromWith])
      | succ m =>
          rw [runFromWith_END] at h
          cases h
          exact ⟨rfl, rfl⟩

end RunShape

section Rounds

/-- Helper: `evaluate_research` in terms of present `iteration_count` and
`quality_score` fields. -/
lemma evaluate_research_fields {s : OverallState} {n : ℤ} {qv : ℚ}
    (hn : s.iteration_count = some n) (hq : s.quality_score = some qv) :
    evaluate_research s =
      if 3 ≤ n then "finalize_answer"
      else if qv < 0.75 then "web_research" else "finalize_answer" := by
  simp [evaluate_research, hn, hq]

/-- Helper: the first two engine steps of any run whose initial
`iteration_count` is absent or 0 — through `START` and `generate_query` —
lead to `web_research` with `iteration_count` set to 0. -/
lemma run_prefix (score : ℤ → ℚ) (fuel : ℕ) (init : OverallState)
    (hic : init.iteration_count = none ∨ init.iteration_count = some 0) :
    runWith score (fuel + 2) init
      = runFromWith score fuel
          ⟨"web_research", { init with iteration_count := some 0 },
            ["generate_query"]⟩ := by
  have hgq : generate_query init = { init with iteration_count := some 0 } := by
    obtain ⟨a, b, c, d, e, f⟩ := init
    rcases hic with h0 | h0 <;> simp only at h0 <;> subst h0 <;>
      simp [generate_query]
  have e1 : runFromWith score (fuel + 1 + 1) ⟨"START", init, []⟩
      = runFromWith score fuel
          ⟨"web_research", { init with iteration_count := some 0 },
            ["generate_query"]⟩ := by
    rw [runFromWith_next score (fuel + 1) (stepWith_START score init []),
      runFromWith_next score fuel (stepWith_generate_query score init []), hgq]
    rfl
  exact e1

/-- Helper: one full loop round — `web_research` then `reflection` — from
a state with a present query and iteration count: two engine steps later
the engine sits at the router's chosen target, with the iteration count
incremented, the quality score overwritten by the scoring policy, and two
results and one reflection appended. -/
lemma research_round (score : ℤ → ℚ) {s : OverallState} {q : String}
    {n : ℤ} (hq : s.query = some q) (hn : s.iteration_count = some n)
    (fuel : ℕ) (tr : List String) :
    ∃ s2, runFromWith score (fuel + 2) ⟨"web_research", s, tr⟩
        = runFromWith score fuel
            ⟨evaluate_research s2, s2, tr ++ ["web_research", "reflection"]⟩
      ∧ s2.query = some q
      ∧ s2.iteration_count = some (n + 1)
      ∧ s2.quality_score = some (score (n + 1))
      ∧ (s2.search_results.getD []).length
          = (s.search_results.getD []).length + 2
      ∧ (s2.reflections.getD []).length
          = (s.reflections.getD []).length + 1 := by
  obtain ⟨qq, sr, rf, fa, ic, qs⟩ := s
  simp only at hq hn
  subst hq
  subst hn
  have hwr : web_research ⟨some q, sr, rf, fa, some n, qs⟩
      = .ok ⟨some q,
          some (sr.getD []
            ++ ["Research finding " ++ toString (n + 1) ++ " for: " ++ q,
                "Research detail " ++ toString (n + 1) ++ " for: " ++ q]),
          rf, fa, some (n + 1), qs⟩ := by
    simp [web_research]
  have hrf : reflectionWith score
      (⟨some q,
          some (sr.getD []
            ++ ["Research finding " ++ toString (n + 1) ++ " for: " ++ q,
                "Research detail " ++ toString (n + 1) ++ " for: " ++ q]),
          rf, fa, some (n + 1), qs⟩ : OverallState)
      = .ok ⟨some q,
          some (sr.getD []
            ++ ["Research finding " ++ toString (n + 1) ++ " for: " ++ q,
                "Research detail " ++ toString (n + 1) ++ " for: " ++ q]),
          some (rf.getD []
            ++ ["Quality assessment of iteration " ++ toString (n + 1)]),
          fa, some (n + 1), some (score (n + 1))⟩ := by
    simp [reflectionWith]
  refine ⟨⟨some q,
      some (sr.getD []
        ++ ["Research finding " ++ toString (n + 1) ++ " for: " ++ q,
            "Research detail " ++ toString (n + 1) ++ " for: " ++ q]),
      some (rf.getD []
        ++ ["Quality assessment of iteration " ++ toString (n + 1)]),
      fa, some (n + 1), some (score (n + 1))⟩, ?_, rfl, rfl, rfl, ?_, ?_⟩
  · have e1 := runFromWith_next score (fuel + 1)
      (by rw [stepWith_web_research, hwr] :
        stepWith score ⟨"web_research", ⟨some q, sr, rf, fa, some n, qs⟩, tr⟩
          = .next ⟨"reflection", _, tr ++ ["web_research"]⟩)
    have e2 := runFromWith_next score fuel
      (by rw [stepWith_reflection, hrf] :
        stepWith score ⟨"reflection", _, tr ++ ["web_research"]⟩
          = .next ⟨evaluate_research _, _,
              (tr ++ ["web_research"]) ++ ["reflection"]⟩)
    rw [e1, e2, List.append_assoc]
    rfl
  · simp
  · simp

end Rounds

section Scenarios

/-- Helper: any run whose initial state has a query and an absent-or-zero
`iteration_count` finishes under the reference scoring policy after
exactly two research rounds, with final `iteration_count` 2 and four
results and two reflections added. -/
lemma run_cap_scenario {init : OverallState} {q : String}
    (hq : init.query = some q)
    (hic : init.iteration_count = none ∨ init.iteration_count = some 0) :
    ∃ s', run 12 init
        = .finished ["generate_query", "web_research", "reflection",
            "web_research", "reflection", "finalize_answer"] s'
      ∧ s'.iteration_count = some 2
      ∧ (s'.search_results.getD []).length
          = (init.search_results.getD []).length + 4
      ∧ (s'.reflections.getD []).length
          = (init.reflections.getD []).length + 2 := by
  have h0 : run 12 init = runFromWith refScore 10
      ⟨"web_research", { init with iteration_count := some 0 },
        ["generate_query"]⟩ :=
    run_prefix refScore 10 init hic
  obtain ⟨s2, he1, hq2, hi2, hqs2, hsr2, hrf2⟩ :=
    research_round refScore
      (show ({ init with iteration_count := some 0 } : OverallState).query
          = some q from hq)
      (show ({ init with iteration_count := some 0 } : OverallState).iteration_count
          = some 0 from rfl) 8 ["generate_query"]
  have hev2 : evaluate_research s2 = "web_research" := by
    rw [evaluate_research_fields hi2 hqs2]
    norm_num [refScore]
  rw [hev2] at he1
  obtain ⟨s3, he2, hq3, hi3, hqs3, hsr3, hrf3⟩ :=
    research_round refScore hq2 hi2 6
      (["generate_query"] ++ ["web_research", "reflection"])
  have hev3 : evaluate_research s3 = "finalize_answer" := by
    rw [evaluate_research_fields hi3 hqs3]
    norm_num [refScore]
  rw [hev3] at he2
  refine ⟨finalize_answer s3, ?_, ?_, ?_, ?_⟩
  · calc run 12 init
        = runFromWith refScore 10
            ⟨"web_research", { init with iteration_count := some 0 },
              ["generate_query"]⟩ := h0
      _ = runFromWith refScore 8
            ⟨"web_research", s2,
              ["generate_query"] ++ ["web_research", "reflection"]⟩ := he1
      _ = runFromWith refScore 6
            ⟨"finalize_answer", s3,
              (["generate_query"] ++ ["web_research", "reflection"])
                ++ ["web_research", "reflection"]⟩ := he2
      _ = .finished ["generate_query", "web_research", "reflection",
            "web_research", "reflection", "finalize_answer"]
            (finalize_answer s3) := by
          rw [runFromWith_next refScore 5 (stepWith_finalize_answer refScore s3 _),
            runFromWith_END]
          rfl
  · rw [(finalize_answer_other s3).2.2.2.1, hi3]
    norm_num
  · rw [(finalize_answer_other s3).2.1, hsr3, hsr2]
  · rw [(finalize_answer_other s3).2.2.1, hrf3, hrf2]

/-- Helper: under any scoring policy that always reports quality below
the 0.75 threshold, a run with a query and an absent-or-zero
`iteration_count` still finishes — after exactly three research rounds,
leaving on the hard-cap path with final `iteration_count` 3. -/
lemma run_lowscore_scenario (score : ℤ → ℚ) (hlow : ∀ i, score i < 0.75)
    {init : OverallState} {q : String} (hq : init.query = some q)
    (hic : init.iteration_count = none ∨ init.iteration_count = some 0) :
    ∃ s', runWith score 12 init
        = .finished ["generate_query", "web_research", "reflection",
            "web_research", "reflection", "web_research", "reflection",
            "finalize_answer"] s'
      ∧ s'.iteration_count = some 3 := by
  have h0 : runWith score 12 init = runFromWith score 10
      ⟨"web_research", { init with iteration_count := some 0 },
        ["generate_query"]⟩ :=
    run_prefix score 10 init hic
  obtain ⟨s2, he1, hq2, hi2, hqs2, hsr2, hrf2⟩ :=
    research_round score
      (show ({ init with iteration_count := some 0 } : OverallState).query
          = some q from hq)
      (show ({ init with iteration_count := some 0 } : OverallState).iteration_count
          = some 0 from rfl) 8 ["generate_query"]
  have hev2 : evaluate_research s2 = "web_research" := by
    rw [evaluate_research_fields hi2 hqs2,
      if_neg (by norm_num : ¬ (3 : ℤ) ≤ 0 + 1), if_pos (hlow (0 + 1))]
  rw [hev2] at he1
  obtain ⟨s3, he2, hq3, hi3, hqs3, hsr3, hrf3⟩ :=
    research_round score hq2 hi2 6
      (["generate_query"] ++ ["web_research", "reflection"])
  have hev3 : evaluate_research s3 = "web_research" := by
    rw [evaluate_research_fields hi3 hqs3,
      if_neg (by norm_num : ¬ (3 : ℤ) ≤ 0 + 1 + 1), if_pos (hlow (0 + 1 + 1))]
  rw [hev3] at he2
  obtain ⟨s4, he3, hq4, hi4, hqs4, hsr4, hrf4⟩ :=
    research_round score hq3 hi3 4
      ((["generate_query"] ++ ["web_research", "reflection"])
        ++ ["web_research", "reflection"])
  have hev4 : evaluate_research s4 = "finalize_answer" := by
    rw [evaluate_research_fields hi4 hqs4, if_pos (by norm_num : (3 : ℤ) ≤ 0 + 1 + 1 + 1)]
  rw [hev4] at he3
  refine ⟨finalize_answer s4, ?_, ?_⟩
  · calc runWith score 12 init
        = runFromWith score 10
            ⟨"web_research", { init with iteration_count := some 0 },
              ["generate_query"]⟩ := h0
      _ = runFromWith score 8
            ⟨"web_research", s2,
              ["generate_query"] ++ ["web_research", "reflection"]⟩ := he1
      _ = runFromWith score 6
            ⟨"web_research", s3,
              (["generate_query"] ++ ["web_research", "reflection"])
                ++ ["web_research", "reflection"]⟩ := he2
      _ = runFromWith score 4
            ⟨"finalize_answer", s4,
              ((["generate_query"] ++ ["web_research", "reflection"])
                ++ ["web_research", "reflection"])
                ++ ["web_research", "reflection"]⟩ := he3
      _ = .finished ["generate_query", "web_research", "reflection",
            "web_research", "reflection", "web_research", "reflection",
            "finalize_answer"] (finalize_answer s4) := by
          rw [runFromWith_next score 3 (stepWith_finalize_answer score s4 _),
            runFromWith_END]
          rfl
  · rw [(finalize_answer_other s4).2.2.2.1, hi4]
    norm_num

end Scenarios

/-- Helper: `evaluate_research` written with its two reads spelled out. -/
lemma evaluate_research_def (s : OverallState) :
    evaluate_research s =
      if s.iteration_count.getD 0 ≥ 3 then "finalize_answer"
      else if s.quality_score.getD 0 < 0.75 then "web_research"
      else "finalize_answer" :=
  rfl

/-- C2: the router `evaluate_research` is a pure function of the pair
(`iteration_count`, `quality_score`) — two states agreeing on the
defaulted pair get the same target — and it decides in this order: at
`iteration_count` ≥ 3 it selects `finalize_answer` regardless of
`quality_score`, otherwise `web_research` exactly when `quality_score` <
0.75. -/
theorem evaluate_research_pure_ordered :
    (∀ s t : OverallState,
        s.iteration_count.getD 0 = t.iteration_count.getD 0 →
        s.quality_score.getD 0 = t.quality_score.getD 0 →
        evaluate_research s = evaluate_research t)
    ∧ ∀ s : OverallState, evaluate_research s =
        if s.iteration_count.getD 0 ≥ 3 then "finalize_answer"
        else if s.quality_score.getD 0 < 0.75 then "web_research"
        else "finalize_answer" := by
  constructor
  · intro s t h1 h2
    rw [evaluate_research_def, evaluate_research_def, h1, h2]
  · exact evaluate_research_def

/-- Witness for C2 at two concrete states agreeing on the pair. -/
theorem evaluate_research_pure_ordered_witness :
    evaluate_research ⟨none, none, none, none, some 1, some 0.5⟩
      = evaluate_research ⟨some "x", some [], none, none, some 1, some 0.5⟩ :=
  evaluate_research_pure_ordered.1 _ _ rfl rfl

/-- C5: a run started with initial `query = "test"` (all other keys
absent) under the reference scoring policy follows the trace
`generate_query → web_research → reflection → web_research → reflection →
finalize_answer` to `END`, and its final state has `iteration_count` 2,
four `search_results` and two `reflections`. -/
theorem scenarioA_trace_and_finals :
    traceOf (run 12 scenarioAInit)
        = some ["generate_query", "web_research", "reflection",
            "web_research", "reflection", "finalize_answer"]
      ∧ finalIterOf (run 12 scenarioAInit) = some (some 2)
      ∧ finalCountsOf (run 12 scenarioAInit) = some (4, 2) := by
  with_unfolding_all decide

/-- C7: once the quality threshold is met before the cap —
`quality_score` ≥ 0.75 with `iteration_count` < 3 — the router selects
`finalize_answer`, and from the `finalize_answer` node a finished run
performs no further `web_research` traversal. -/
theorem quality_threshold_met_finalizes :
    (∀ s : OverallState, s.iteration_count.getD 0 < 3 →
        (0.75 : ℚ) ≤ s.quality_score.getD 0 →
        evaluate_research s = "finalize_answer")
    ∧ ∀ (fuel : ℕ) (s : OverallState) (tr tr' : List String)
        (s' : OverallState),
        runFromWith refScore fuel ⟨"finalize_answer", s, tr⟩
          = .finished tr' s' →
        wrCount tr' = wrCount tr := by
  constructor
  · intro s h1 h2
    rw [evaluate_research_def, if_neg (not_le.mpr h1),
      if_neg (not_lt.mpr h2)]
  · intro fuel s tr tr' s' h
    obtain ⟨htr, _⟩ := finished_from_finalize h
    rw [htr, wrCount_append_other _ (by decide)]

/-- Witness for C7 at a concrete state with quality 0.8 at iteration 1,
and a concrete finished tail run. -/
theorem quality_threshold_met_finalizes_witness :
    evaluate_research ⟨none, none, none, none, some 1, some 0.8⟩
        = "finalize_answer"
      ∧ wrCount ["finalize_answer"] = wrCount [] :=
  ⟨quality_threshold_met_finalizes.1 _ (by decide)
      (by with_unfolding_all decide),
    quality_threshold_met_finalizes.2 2 ⟨none, none, none, none, none, none⟩
      [] ["finalize_answer"]
      (finalize_answer ⟨none, none, none, none, none, none⟩)
      (by with_unfolding_all decide)⟩

/-- C8: every successful `reflection` overwrites `quality_score` with 0.8
when `iteration_count` ≥ 2 and 0.5 otherwise; the written score is always
in [0, 1], and the scoring policy is monotone in the iteration count. -/
theorem reflection_score_policy :
    (∀ s s' : OverallState, reflection s = .ok s' →
        s'.quality_score
          = some (if s.iteration_count.getD 0 ≥ 2 then (0.8 : ℚ) else 0.5))
    ∧ (∀ s s' : OverallState, reflection s = .ok s' →
        ∃ qv : ℚ, s'.quality_score = some qv ∧ 0 ≤ qv ∧ qv ≤ 1)
    ∧ ∀ i j : ℤ, i ≤ j → refScore i ≤ refScore j := by
  have hbounds : ∀ i : ℤ, (0 : ℚ) ≤ refScore i ∧ refScore i ≤ 1 := by
    intro i
    unfold refScore
    split <;> norm_num
  have hval : ∀ s s' : OverallState, reflection s = .ok s' →
      s'.quality_score = some (refScore (s.iteration_count.getD 0)) := by
    intro s s' h
    obtain ⟨_, _, _, ic, hic, hqs⟩ := reflectionWith_spec h
    rw [hqs, hic]
    rfl
  refine ⟨fun s s' h => hval s s' h, fun s s' h => ?_, ?_⟩
  · exact ⟨refScore (s.iteration_count.getD 0), hval s s' h,
      (hbounds _).1, (hbounds _).2⟩
  · intro i j hij
    unfold refScore
    by_cases hi : i ≥ 2
    · rw [if_pos hi, if_pos (le_trans hi hij)]
    · by_cases hj : j ≥ 2
      · rw [if_neg hi, if_pos hj]
        norm_num
      · rw [if_neg hi, if_neg hj]

/-- Witness for C8 at a concrete successful reflection at iteration 1. -/
theorem reflection_score_policy_witness :
    (⟨none, none, some ["Quality assessment of iteration 1"], none,
        some 1, some 0.5⟩ : OverallState).quality_score
      = some (if (⟨none, none, none, none, some 1, none⟩
          : OverallState).iteration_count.getD 0 ≥ 2 then (0.8 : ℚ) else 0.5) :=
  reflection_score_policy.1 ⟨none, none, none, none, some 1, none⟩
    ⟨none, none, some ["Quality assessment of iteration 1"], none,
      some 1, some 0.5⟩
    (by with_unfolding_all rfl)

/-- C10: `evaluate_research` is total on every state shape — both fields
are read with default 0 — its answer always lies in its declared
candidate set `{web_research, finalize_answer}`, and a state missing both
fields routes to `web_research`. -/
theorem evaluate_research_total_in_candidates :
    (∀ s : OverallState,
        evaluate_research s ∈ (["web_research", "finalize_answer"] : List String))
    ∧ ∀ s : OverallState, s.quality_score = none → s.iteration_count = none →
        evaluate_research s = "web_research" := by
  constructor
  · intro s
    rcases evaluate_research_mem s with h | h <;> simp [h]
  · intro s hq hic
    rw [evaluate_research_def, hic, hq]
    norm_num

/-- Witness for C10 at the fully absent state. -/
theorem evaluate_research_total_in_candidates_witness :
    evaluate_research ⟨none, none, none, none, none, none⟩ = "web_research" :=
  evaluate_research_total_in_candidates.2 _ rfl rfl

/-- C1 (counterexample): the initial input mapping
`{query: "q", iteration_count: 3}` makes `run` finish with final
`iteration_count` 4, which is not at most 3 — so the bound does not hold
for every initial input mapping. -/
theorem run_iterThree_final_iter_four :
    finalIterOf (run 12 iterThreeInit) = some (some 4)
      ∧ ¬ ((4 : ℤ) ≤ 3) := by
  with_unfolding_all decide

/-- C1 (amended): for every initial input mapping that contains a `query`
and whose `iteration_count` is absent or 0, `run` terminates by reaching
`END`, with final `iteration_count` at most 3 and at most 3 traversals of
`web_research`, independent of the other initial fields. -/
theorem run_reaches_end_iter_le_three {init : OverallState} {q : String}
    (hq : init.query = some q)
    (hic : init.iteration_count = none ∨ init.iteration_count = some 0) :
    ∃ tr s', run 12 init = .finished tr s'
      ∧ s'.iteration_count.getD 0 ≤ 3 ∧ wrCount tr ≤ 3 := by
  obtain ⟨s', he, hi, _, _⟩ := run_cap_scenario hq hic
  refine ⟨_, s', he, ?_, by decide⟩
  rw [hi]
  norm_num

/-- Witness for C1 at the scenario-A initial state. -/
theorem run_reaches_end_iter_le_three_witness :
    ∃ tr s', run 12 scenarioAInit = .finished tr s'
      ∧ s'.iteration_count.getD 0 ≤ 3 ∧ wrCount tr ≤ 3 :=
  run_reaches_end_iter_le_three rfl (Or.inl rfl)

/-- C3: every successful `web_research` sets `iteration_count` to its
previous defaulted value plus exactly 1, no engine step ever decreases
the defaulted `iteration_count`, and on a run whose initial mapping lacks
`iteration_count` (initialised to 0 by `generate_query`), every reachable
configuration's defaulted `iteration_count` equals the number of
completed `web_research` executions in its trace. -/
theorem iteration_count_tracks_web_research :
    (∀ s s' : OverallState, web_research s = .ok s' →
        s'.iteration_count = some (s.iteration_count.getD 0 + 1))
    ∧ (∀ b c : Config, step b = .next c →
        b.state.iteration_count.getD 0 ≤ c.state.iteration_count.getD 0)
    ∧ ∀ init : OverallState, init.iteration_count = none →
        ∀ c : Config, Reaches (startConfig init) c →
          c.state.iteration_count.getD 0 = (wrCount c.trace : ℤ) := by
  refine ⟨fun s s' h => web_research_iter h, ?_, ?_⟩
  · intro b c hs
    rcases step_next_spec hs with
        ⟨_, _, hst, _⟩ | ⟨_, _, hst, _⟩ | ⟨_, _, hok, _⟩ |
        ⟨_, _, hok, _⟩ | ⟨_, _, hst, _⟩
    · rw [hst]
    · rw [hst, generate_query_iter]
    · rw [web_research_iter hok]
      simp
    · rw [(reflectionWith_spec hok).1]
    · rw [hst, (finalize_answer_other b.state).2.2.2.1]
  · intro init h c hr
    exact iter_eq_wrCount_reaches (Or.inl h) hr

/-- Witness for C3 at the reachable start configuration of scenario A. -/
theorem iteration_count_tracks_web_research_witness :
    (startConfig scenarioAInit).state.iteration_count.getD 0
      = (wrCount (startConfig scenarioAInit).trace : ℤ) :=
  iteration_count_tracks_web_research.2.2 scenarioAInit rfl _ (Reaches.refl _)

/-- C4 (counterexample): in the scenario-A run, `web_research` executes
twice but the final `search_results` length is 4, so the length does not
equal the number of executions of its producing node. -/
theorem scenarioA_results_not_equal_executions :
    traceOf (run 12 scenarioAInit)
        = some ["generate_query", "web_research", "reflection",
            "web_research", "reflection", "finalize_answer"]
      ∧ wrCount ["generate_query", "web_research", "reflection",
          "web_research", "reflection", "finalize_answer"] = 2
      ∧ finalCountsOf (run 12 scenarioAInit) = some (4, 2)
      ∧ (4 : ℕ) ≠ 2 := by
  with_unfolding_all decide

/-- C4 (amended): across every run the lengths of `search_results` and
`reflections` never decrease at any engine step, and on a run started
with both lists absent, at every reachable configuration the
`search_results` length equals twice the number of `web_research`
executions (each execution appends two results) while the `reflections`
length equals the number of `reflection` executions. -/
theorem lengths_track_node_executions :
    (∀ b c : Config, step b = .next c →
        (b.state.search_results.getD []).length
            ≤ (c.state.search_results.getD []).length
          ∧ (b.state.reflections.getD []).length
            ≤ (c.state.reflections.getD []).length)
    ∧ ∀ init : OverallState, init.search_results = none →
        init.reflections = none →
        ∀ c : Config, Reaches (startConfig init) c →
          (c.state.search_results.getD []).length = 2 * wrCount c.trace
            ∧ (c.state.reflections.getD []).length = reflCount c.trace := by
  refine ⟨fun b c hs => lengths_mono_step hs, ?_⟩
  intro init hsr hrf c hr
  have h := lengths_reaches hr
  rw [hsr, hrf] at h
  simpa using h

/-- Witness for C4 at the reachable start configuration of scenario A. -/
theorem lengths_track_node_executions_witness :
    ((startConfig scenarioAInit).state.search_results.getD []).length
        = 2 * wrCount (startConfig scenarioAInit).trace
      ∧ ((startConfig scenarioAInit).state.reflections.getD []).length
        = reflCount (startConfig scenarioAInit).trace :=
  lengths_track_node_executions.2 scenarioAInit rfl rfl _ (Reaches.refl _)

/-- C6: under any scoring policy that always reports quality below the
0.75 threshold, a run with a query and absent-or-zero `iteration_count`
still terminates, on the hard-cap routing path with final
`iteration_count` exactly 3 — three `web_research` traversals, not
fewer. -/
theorem lowscore_run_hits_cap (score : ℤ → ℚ)
    (hlow : ∀ i, score i < 0.75) {init : OverallState} {q : String}
    (hq : init.query = some q)
    (hic : init.iteration_count = none ∨ init.iteration_count = some 0) :
    ∃ s', runWith score 12 init
        = .finished ["generate_query", "web_research", "reflection",
            "web_research", "reflection", "web_research", "reflection",
            "finalize_answer"] s'
      ∧ s'.iteration_count = some 3
      ∧ wrCount ["generate_query", "web_research", "reflection",
          "web_research", "reflection", "web_research", "reflection",
          "finalize_answer"] = 3 := by
  obtain ⟨s', he, hi⟩ := run_lowscore_scenario score hlow hq hic
  exact ⟨s', he, hi, by decide⟩

/-- Witness for C6 with the constant scoring policy 0.5 on the scenario-A
initial state. -/
theorem lowscore_run_hits_cap_witness :
    ∃ s', runWith (fun _ => (0.5 : ℚ)) 12 scenarioAInit
        = .finished ["generate_query", "web_research", "reflection",
            "web_research", "reflection", "web_research", "reflection",
            "finalize_answer"] s'
      ∧ s'.iteration_count = some 3
      ∧ wrCount ["generate_query", "web_research", "reflection",
          "web_research", "reflection", "web_research", "reflection",
          "finalize_answer"] = 3 :=
  lowscore_run_hits_cap (fun _ => 0.5)
    (fun i => show (0.5 : ℚ) < 0.75 by with_unfolding_all decide) rfl
    (Or.inl rfl)

/-- C9: a graph declaring a conditional-edge candidate target that is not
in the node registry is rejected with `BuildError` at construction time,
and no run can start on it; the repository's declared graph passes the
check. -/
theorem buildCheck_rejects_unknown_target :
    (∀ g : GraphDef,
        (∃ e ∈ g.conditionalEdges, ∃ t ∈ e.2, t ∉ g.nodes) →
        buildCheck g = .error "BuildError"
          ∧ ∀ (fuel : ℕ) (init : OverallState),
              buildAndRun g fuel init = .error "BuildError")
    ∧ buildCheck reasoningGraphDef = .ok () := by
  constructor
  · intro g hbad
    obtain ⟨e, he, t, ht, hmem⟩ := hbad
    have herr : buildCheck g = .error "BuildError" := by
      unfold buildCheck
      rw [if_neg]
      intro hall
      exact hmem (hall e he t ht)
    refine ⟨herr, fun fuel init => ?_⟩
    unfold buildAndRun
    rw [herr]
  · rfl

/-- Witness for C9 at a one-node graph with an unknown candidate. -/
theorem buildCheck_rejects_unknown_target_witness :
    buildCheck ⟨["a"], [("a", ["missing"])]⟩ = .error "BuildError"
      ∧ buildAndRun ⟨["a"], [("a", ["missing"])]⟩ 1
          ⟨none, none, none, none, none, none⟩ = .error "BuildError" :=
  ⟨(buildCheck_rejects_unknown_target.1 ⟨["a"], [("a", ["missing"])]⟩
      ⟨("a", ["missing"]), by decide, "missing", by decide, by decide⟩).1,
    (buildCheck_rejects_unknown_target.1 ⟨["a"], [("a", ["missing"])]⟩
      ⟨("a", ["missing"]), by decide, "missing", by decide, by decide⟩).2 1 _⟩

end ReasoningGraph
